import Mathlib

/-!
Verification development for the cosmic-ext-web-apps webview host and editor.

The definitions below are a shallow embedding of the policy / IPC / safety
core of the repository: the URL safety filter, the permission-override
script synthesizer, the IPC gateway dispatch (including session-URL
persistence), the editor's window-size clamping, and the user-agent
selection.  Machine floats of the source are modelled as rationals; the
external `url` and `serde_json` crates are modelled at the level of their
documented observable behavior.
-/

namespace WebApps

/-! ## Model of `url::Url::parse` (external dependency)

`is_url_safe` in `src/bin/webview.rs` calls `url::Url::parse`, the WHATWG
URL parser from the `url` crate.  The model below captures the parts of
that parser that determine parse success and the scheme value: input
trimming, scheme parsing and ASCII lowercasing, and authority/host
validation for special schemes.  Percent-encoding, IDNA and
path/query/fragment processing are omitted: they do not affect the scheme
nor parse success for the inputs considered here. -/

/-- C0 controls and space, stripped from both ends of parser input. -/
def isC0ControlOrSpace (c : Char) : Bool := c.toNat ≤ 0x20

/-- ASCII tab or newline, removed from anywhere in parser input. -/
def isAsciiTabOrNewline (c : Char) : Bool := c = '\t' || c = '\n' || c = '\r'

def isAsciiAlpha (c : Char) : Bool := ('a' ≤ c && c ≤ 'z') || ('A' ≤ c && c ≤ 'Z')

def isAsciiDigitChar (c : Char) : Bool := '0' ≤ c && c ≤ '9'

/-- Characters allowed after the first character of a URL scheme. -/
def isSchemeChar (c : Char) : Bool :=
  isAsciiAlpha c || isAsciiDigitChar c || c = '+' || c = '-' || c = '.'

/-- ASCII lowercasing, applied by the parser to the scheme and to hosts. -/
def asciiLower (c : Char) : Char :=
  if 'A' ≤ c && c ≤ 'Z' then Char.ofNat (c.toNat + 32) else c

/-- The special schemes of the WHATWG URL standard. -/
def specialSchemes : List String := ["http", "https", "ws", "wss", "ftp", "file"]

/-- Code points forbidden in a special-scheme (domain) host. -/
def isForbiddenHostChar (c : Char) : Bool :=
  c = Char.ofNat 0 || c = '\t' || c = '\n' || c = '\r' || c = ' ' || c = '#' ||
  c = '/' || c = ':' || c = '<' || c = '>' || c = '?' || c = '@' || c = '[' ||
  c = '\\' || c = ']' || c = '^' || c = '|' || c = '%'

/-- The part of a parsed URL that `is_url_safe` observes. -/
structure ModelUrl where
  scheme : String
  host : Option String
deriving Repr, DecidableEq

/-- Parse errors of the modelled parser (a subset of `url::ParseError`). -/
inductive UrlParseError where
  | relativeUrlWithoutBase
  | emptyHost
  | invalidHost
  | invalidPort
deriving Repr, DecidableEq

/-- Scheme loop: consume scheme characters until the terminating colon,
lowercasing as it goes; any other character aborts (no scheme). -/
def schemeLoop : List Char → List Char → Option (String × List Char)
  | [], _ => none
  | c :: rest, acc =>
    if c = ':' then some (String.mk acc.reverse, rest)
    else if isSchemeChar c then schemeLoop rest (asciiLower c :: acc)
    else none

/-- Scheme start: the first character must be an ASCII alpha. -/
def schemeParse : List Char → Option (String × List Char)
  | [] => none
  | c :: rest => if isAsciiAlpha c then schemeLoop rest [asciiLower c] else none

/-- Numeric value of a digit string. -/
def digitsVal (cs : List Char) : Nat :=
  cs.foldl (fun acc c => 10 * acc + (c.toNat - '0'.toNat)) 0

/-- Authority parsing for the special non-file schemes: skip any run of
slashes, take the authority up to a path/query/fragment delimiter, strip
userinfo at the last commercial-at, then validate host and port. -/
def parseSpecialAuthority (scheme : String) (rest : List Char) :
    Except UrlParseError ModelUrl :=
  let afterSlashes := rest.dropWhile (fun c => c = '/' || c = '\\')
  let authority :=
    afterSlashes.takeWhile (fun c => !(c = '/' || c = '\\' || c = '?' || c = '#'))
  let hostPort := (authority.reverse.takeWhile (fun c => c ≠ '@')).reverse
  if hostPort.head? = some '[' then
    -- bracketed (IPv6) hosts are accepted without detailed validation
    if hostPort.contains ']' then .ok { scheme, host := some (String.mk hostPort) }
    else .error .invalidHost
  else
    let hostCs := hostPort.takeWhile (fun c => c ≠ ':')
    let portCs := (hostPort.dropWhile (fun c => c ≠ ':')).drop 1
    if hostCs.isEmpty then .error .emptyHost
    else if hostCs.any isForbiddenHostChar then .error .invalidHost
    else if !portCs.all isAsciiDigitChar then .error .invalidPort
    else if portCs.length > 0 && digitsVal portCs > 65535 then .error .invalidPort
    else .ok { scheme, host := some (String.mk (hostCs.map asciiLower)) }

/-- Model of `url::Url::parse` with no base URL. -/
def parseUrl (input : String) : Except UrlParseError ModelUrl :=
  let cs0 := input.toList
  let cs1 := ((cs0.dropWhile isC0ControlOrSpace).reverse.dropWhile
      isC0ControlOrSpace).reverse
  let cs := cs1.filter (fun c => !isAsciiTabOrNewline c)
  match schemeParse cs with
  | none => .error .relativeUrlWithoutBase
  | some (scheme, rest) =>
    if scheme = "file" then .ok { scheme, host := none }
    else if specialSchemes.contains scheme then parseSpecialAuthority scheme rest
    else .ok { scheme, host := none }

/-- `is_url_safe` from `src/bin/webview.rs` lines 14-19: a URL is safe iff
it parses and its scheme is http or https. -/
def is_url_safe (url_str : String) : Bool :=
  match parseUrl url_str with
  | .ok url => url.scheme = "http" || url.scheme = "https"
  | .error _ => false

/-! ## Model of `serde_json::Value` (external dependency)

The IPC handler parses its payload with
`serde_json::from_str::<serde_json::Value>` and then inspects the parsed
value with `get`, `as_str` and `as_u64`.  `Json` below is the parsed value;
the handler is given the outcome of parsing as an `Option Json`, `none`
standing for a payload that fails to parse as JSON.  Objects produced by
parsing have distinct keys, so first-match lookup agrees with the map
lookup of `serde_json`.  Numbers are modelled as integers, which covers
every numeric payload the injected scripts emit. -/

inductive Json where
  | null
  | bool (b : Bool)
  | num (n : Int)
  | str (s : String)
  | arr (elems : List Json)
  | obj (fields : List (String × Json))

/-- First-match field lookup, `Value::get` on an object; `None` on any
non-object value. -/
def findField : List (String × Json) → String → Option Json
  | [], _ => none
  | (k, v) :: rest, key => if k = key then some v else findField rest key

def Json.get : Json → String → Option Json
  | .obj fields, key => findField fields key
  | _, _ => none

/-- `Value::as_str`. -/
def Json.asStr : Json → Option String
  | .str s => some s
  | _ => none

/-- `Value::as_u64` on the integer model. -/
def Json.asU64 : Json → Option Nat
  | .num n => if 0 ≤ n then some n.toNat else none
  | _ => none

/-! ## Config model

The `webapps` library crate (the `Browser` record, `WebAppLauncher`,
`sanitize_app_id`, `database_path` and the default constants) is not among
the given source files; only `src/bin/webview.rs` and the editor page
consume it.  The records below are therefore modelled from the spec.

Modelled from the spec: `LauncherConfig` of section 3 — identity, url and
policy flags, nested as the webview host reads them
(`browser.url`, `browser.permissions`, `launcher.browser.last_url`, ...).
Floating-point fields (window size, zoom) are modelled as rationals. -/

structure Permissions where
  allow_camera : Bool
  allow_microphone : Bool
  allow_geolocation : Bool
  allow_notifications : Bool
deriving Repr, DecidableEq

/-- The user-agent selection variant: Default | Mobile | Custom(string). -/
inductive UserAgent where
  | Default
  | Mobile
  | Custom (ua : String)
deriving Repr, DecidableEq

structure Browser where
  app_id : String
  url : Option String
  last_url : Option String
  window_title : Option String
  window_size : Option (ℚ × ℚ)
  window_decorations : Option Bool
  private_mode : Option Bool
  try_simulate_mobile : Option Bool
  user_agent : Option UserAgent
  permissions : Option Permissions
  content_blocking : Option Bool
  block_third_party_cookies : Option Bool
  block_webrtc : Option Bool
  proxy_url : Option String
  custom_css : Option String
  custom_js : Option String
  zoom_level : Option ℚ
  restore_session : Option Bool
  minimize_to_background : Option Bool
  auto_dark_mode : Option Bool
  profile : Option String
deriving Repr, DecidableEq

/-- Modelled from the spec: the persisted launcher record
(`webapps::launcher::WebAppLauncher`), carrying the browser policy record
plus display metadata and usage counters. -/
structure WebAppLauncher where
  browser : Browser
  name : String
  icon_path : String
  category : String
  launch_count : Nat
  last_launched : Option Nat
deriving Repr, DecidableEq

/-! ## Policy Script Synthesizer (`src/bin/webview.rs` lines 152-291)

Each injected guard script is represented by a descriptor carrying exactly
the data interpolated into the script source, and the behavior of the
permission-guard scripts is transliterated from their JavaScript into Lean
functions. -/

inductive Script where
  | getUserMediaGuard (block_video block_audio : Bool)
  | geolocationDeny
  | notificationDeny
deriving Repr, DecidableEq

/-- `permission_overrides` built at lines 154-206: a getUserMedia guard when
camera or microphone is denied (with the two block flags interpolated), a
geolocation denial script, and a Notification denial script. -/
def permission_overrides (perms : Permissions) : List Script :=
  (if !perms.allow_camera || !perms.allow_microphone then
    [Script.getUserMediaGuard (!perms.allow_camera) (!perms.allow_microphone)]
  else []) ++
  (if !perms.allow_geolocation then [Script.geolocationDeny] else []) ++
  (if !perms.allow_notifications then [Script.notificationDeny] else [])

/-- The notification-forwarding override (lines 273-291) is injected exactly
when notifications are allowed. -/
def notificationForwardInjected (perms : Permissions) : Bool :=
  perms.allow_notifications

/-- Truthiness of the two fields of a getUserMedia constraints object. -/
structure MediaConstraints where
  video : Bool
  audio : Bool
deriving Repr, DecidableEq

inductive GumOutcome where
  | rejected (errorMessage errorName : String)
  | passThrough (constraints : Option MediaConstraints)
deriving Repr, DecidableEq

/-- Behavior of the injected getUserMedia guard (lines 165-178), with
`none` standing for an absent (falsy) constraints argument: reject video
requests when video is blocked, then audio requests when audio is blocked,
otherwise call through to the original implementation. -/
def getUserMedia_override (block_video block_audio : Bool)
    (constraints : Option MediaConstraints) : GumOutcome :=
  match constraints with
  | some c =>
    if block_video && c.video then
      .rejected "Camera access denied by app settings" "NotAllowedError"
    else if block_audio && c.audio then
      .rejected "Microphone access denied by app settings" "NotAllowedError"
    else .passThrough (some c)
  | none => .passThrough none

inductive NotifConstructOutcome where
  | threw (errorMessage errorName : String)
  | postedIpc (payload : Json)

/-- Behavior of the denial Notification override (lines 196-206): the
constructor always throws. -/
def notificationDeny_construct : NotifConstructOutcome :=
  .threw "Notifications denied by app settings" "NotAllowedError"

/-- `Notification.permission` under the denial override. -/
def notificationDeny_permission : String := "denied"

/-- `Notification.requestPermission()` result under the denial override. -/
def notificationDeny_requestPermission : String := "denied"

/-- Behavior of the forwarding Notification override (lines 275-290): the
constructor posts an IPC message with the title and options.body, falsy
arguments replaced by the empty string. -/
def notificationForward_construct (title options_body : Option String) :
    NotifConstructOutcome :=
  .postedIpc (Json.obj
    [("type", Json.str "notification"),
     ("title", Json.str (title.getD "")),
     ("body", Json.str (options_body.getD ""))])

/-- `Notification.permission` under the forwarding override. -/
def notificationForward_permission : String := "granted"

/-! ## IPC Gateway (`src/bin/webview.rs` lines 363-415)

The handler closure is embedded as a state-passing function: the captured
environment, the on-disk launcher record (as the outcome of reading and
RON-parsing it), and the parsed payload go in; the record and the list of
performed side effects come out. -/

/-- The observable state of the per-app RON database file: absent or
unreadable, readable but not RON-parseable, or parsed to a record.
Serializing a record and writing it back yields a `record` state again
(the RON round-trip of the launcher record). -/
inductive DiskFile where
  | missing
  | unparseable
  | record (l : WebAppLauncher)
deriving Repr, DecidableEq

/-- The environment captured by the IPC closure at lines 364-367, plus
whether `webapps::database_path` resolves (the data directory exists). -/
structure IpcEnv where
  forward_notifications : Bool
  app_title : String
  restore_session_enabled : Bool
  db_path_available : Bool
deriving Repr, DecidableEq

/-- The captured environment as `main` builds it: `forward_notifications`
is the notifications permission, `app_title` the window title with the
"Web App" fallback (lines 55-58), `restore_session_enabled` the
restore-session flag defaulted to false. -/
def mkIpcEnv (window_title : Option String) (perms : Permissions)
    (restore_session : Option Bool) (db_path_available : Bool) : IpcEnv :=
  { forward_notifications := perms.allow_notifications
    app_title := window_title.getD "Web App"
    restore_session_enabled := restore_session.getD false
    db_path_available }

/-- Observable side effects of one IPC handler invocation. -/
inductive Effect where
  | showNotification (summary body appname : String)
  | debugLog (msg : String)
  | writeDb (l : WebAppLauncher)

/-- `launcher.browser.last_url = Some(new_url.to_string())` at line 402. -/
def setLastUrl (l : WebAppLauncher) (new_url : String) : WebAppLauncher :=
  { l with browser := { l.browser with last_url := some new_url } }

/-- The save_url arm (lines 395-410): extract a non-empty url string, and
if the database path resolves, re-read the record, update `last_url`,
re-serialize and write it back; any failure along the way is skipped. -/
def handleSaveUrl (env : IpcEnv) (disk : DiskFile) (parsed : Json) :
    DiskFile × List Effect :=
  match (parsed.get "url").bind Json.asStr with
  | some new_url =>
    if !new_url.isEmpty then
      if env.db_path_available then
        match disk with
        | .record l =>
          let l' := setLastUrl l new_url
          (.record l', [.writeDb l'])
        | _ => (disk, [])
      else (disk, [])
    else (disk, [])
  | none => (disk, [])

/-- The dispatch on the parsed payload's type discriminant (the `match` at
lines 371-413).  The match guards of the Rust arms fall through to the
wildcard when their condition fails, which the if-chain mirrors. -/
def ipcDispatch (env : IpcEnv) (disk : DiskFile) (parsed : Json) :
    DiskFile × List Effect :=
  match (parsed.get "type").bind Json.asStr with
  | some t =>
    if t = "notification" && env.forward_notifications then
      let title := ((parsed.get "title").bind Json.asStr).getD "Notification"
      let body := ((parsed.get "body").bind Json.asStr).getD ""
      (disk, [.showNotification (env.app_title ++ " — " ++ title) body
        "dev.heppen.webapps"])
    else if t = "media" then
      match (parsed.get "state").bind Json.asStr with
      | some state => (disk, [.debugLog ("Media state: " ++ state)])
      | none => (disk, [])
    else if t = "badge" then
      match (parsed.get "count").bind Json.asU64 with
      | some count => (disk, [.debugLog ("Badge count: " ++ toString count)])
      | none => (disk, [])
    else if t = "save_url" && env.restore_session_enabled then
      handleSaveUrl env disk parsed
    else (disk, [])
  | none => (disk, [])

/-- The IPC handler closure (lines 368-415): the `if let Ok(parsed)` layer
around the dispatch, a failed parse producing no effect. -/
def ipcHandler (env : IpcEnv) (disk : DiskFile) (parsed? : Option Json) :
    DiskFile × List Effect :=
  match parsed? with
  | none => (disk, [])
  | some parsed => ipcDispatch env disk parsed

/-- The type discriminant the handler dispatches on. -/
def jsonType (parsed? : Option Json) : Option String :=
  parsed?.bind (fun p => (p.get "type").bind Json.asStr)

/-- The save_url message as the injected session script posts it. -/
def saveUrlMsg (u : String) : Json :=
  Json.obj [("type", Json.str "save_url"), ("url", Json.str u)]

/-- A notification message with string title and body. -/
def notifMsg (title body : String) : Json :=
  Json.obj [("type", Json.str "notification"),
    ("title", Json.str title), ("body", Json.str body)]

/-! ## Startup URL validation and user-agent selection (`main`) -/

/-- Lines 45-50: `main` exits over the configured URL exactly when the
URL (defaulted to the empty string) is non-empty and unsafe. -/
def startupUrlRejected (browser_url : Option String) : Bool :=
  let url := browser_url.getD ""
  !url.isEmpty && !is_url_safe url

/-- Unicode white-space code points, as Rust's `char::is_whitespace`. -/
def isRustWhitespace (c : Char) : Bool :=
  c.toNat ∈ ([0x09, 0x0A, 0x0B, 0x0C, 0x0D, 0x20, 0x85, 0xA0, 0x1680,
    0x2000, 0x2001, 0x2002, 0x2003, 0x2004, 0x2005, 0x2006, 0x2007, 0x2008,
    0x2009, 0x200A, 0x2028, 0x2029, 0x202F, 0x205F, 0x3000] : List Nat)

/-- Rust's `str::trim`. -/
def rustTrim (s : String) : List Char :=
  ((s.toList.dropWhile isRustWhitespace).reverse.dropWhile
    isRustWhitespace).reverse

/-- User-agent selection at lines 135-150, returning the string passed to
`with_user_agent`, or `none` when the engine default is left in place.
`mobile_ua` is the `webapps::MOBILE_UA` constant (not among the given
sources), taken as a parameter. -/
def selectUserAgent (mobile_ua : String) (try_simulate_mobile : Option Bool)
    (user_agent : Option UserAgent) : Option String :=
  match try_simulate_mobile with
  | some true => some mobile_ua
  | _ =>
    match user_agent with
    | none => none
    | some .Default => none
    | some .Mobile => some mobile_ua
    | some (.Custom custom_ua) =>
      if !(rustTrim custom_ua).isEmpty then some custom_ua else none

/-! ## Editor window-size messages
(`src/bin/dev-heppen-webapps/pages/editor.rs` lines 14-20 and 438-453)

Only the fields those two message arms touch are carried; the default
dimension constants live in the `webapps` crate, which is not among the
given sources, so they are parameters. -/

/-- `filter_numeric`: keep only ASCII digits and dots. -/
def filter_numeric (input : String) : String :=
  String.mk (input.toList.filter (fun c => c.isDigit || c = '.'))

/-- Model of Rust's `str::parse::<f64>` restricted to strings of digits and
dots (the only strings `filter_numeric` produces): defined iff the string
is non-empty, has at most one dot and at least one digit; the value is
exact as a rational. -/
def parse_f64 (s : String) : Option ℚ :=
  let cs := s.toList
  if cs.isEmpty then none
  else if cs.count '.' > 1 then none
  else if !cs.any Char.isDigit then none
  else
    let intPart := cs.takeWhile (fun c => c ≠ '.')
    let fracPart := (cs.dropWhile (fun c => c ≠ '.')).drop 1
    some ((digitsVal intPart : ℚ) + (digitsVal fracPart : ℚ) / 10 ^ fracPart.length)

/-- Rust's `f64::clamp` on the rational model (no NaN can arise from
digit-and-dot strings). -/
def rustClamp (x lo hi : ℚ) : ℚ :=
  if x < lo then lo else if x > hi then hi else x

/-- The editor fields read and written by the WindowWidth / WindowHeight
message arms. -/
structure AppEditorSize where
  app_window_width : String
  app_window_height : String
  app_window_size : ℚ × ℚ
deriving Repr, DecidableEq

/-- The `webapps::DEFAULT_WINDOW_WIDTH` / `DEFAULT_WINDOW_HEIGHT`
constants, not among the given sources. -/
structure EditorDefaults where
  default_window_width : ℚ
  default_window_height : ℚ
deriving Repr, DecidableEq

/-- `Message::WindowWidth` arm (editor.rs lines 438-445). -/
def updateWindowWidth (d : EditorDefaults) (st : AppEditorSize)
    (width : String) : AppEditorSize :=
  let filtered := filter_numeric width
  let parsed := (parse_f64 filtered).getD d.default_window_width
  { st with
    app_window_width := filtered
    app_window_size := (rustClamp parsed 200 8192, st.app_window_size.2) }

/-- `Message::WindowHeight` arm (editor.rs lines 446-453). -/
def updateWindowHeight (d : EditorDefaults) (st : AppEditorSize)
    (height : String) : AppEditorSize :=
  let filtered := filter_numeric height
  let parsed := (parse_f64 filtered).getD d.default_window_height
  { st with
    app_window_height := filtered
    app_window_size := (st.app_window_size.1, rustClamp parsed 200 8192) }

/-! ## Concrete fixtures for witnesses -/

/-- A concrete browser record used to instantiate the theorems. -/
def sampleBrowser : Browser :=
  { app_id := "app"
    url := some "https://home.example/"
    last_url := some "https://old.example/"
    window_title := some "Title"
    window_size := none
    window_decorations := none
    private_mode := none
    try_simulate_mobile := none
    user_agent := none
    permissions := none
    content_blocking := none
    block_third_party_cookies := none
    block_webrtc := none
    proxy_url := none
    custom_css := none
    custom_js := none
    zoom_level := none
    restore_session := some true
    minimize_to_background := none
    auto_dark_mode := none
    profile := none }

/-- A concrete persisted launcher record. -/
def sampleLauncher : WebAppLauncher :=
  { browser := sampleBrowser
    name := "App"
    icon_path := "icon.png"
    category := "Web"
    launch_count := 3
    last_launched := some 1000 }

/-- A concrete IPC environment with everything enabled. -/
def sampleEnv : IpcEnv :=
  { forward_notifications := true
    app_title := "Title"
    restore_session_enabled := true
    db_path_available := true }

/-! ## Theorems -/

/-- A non-empty string has `isEmpty` false. -/
theorem isEmpty_eq_false_of_ne_empty (s : String) (h : s ≠ "") :
    s.isEmpty = false := by
  rw [Bool.eq_false_iff]
  exact fun he => h ((String.isEmpty_iff s).mp he)

/-- `rustClamp` always lands in the interval when the bounds are ordered. -/
theorem rustClamp_mem_Icc (x lo hi : ℚ) (h : lo ≤ hi) :
    lo ≤ rustClamp x lo hi ∧ rustClamp x lo hi ≤ hi := by
  unfold rustClamp
  split_ifs with h1 h2
  · exact ⟨le_refl lo, h⟩
  · exact ⟨h, le_refl hi⟩
  · exact ⟨le_of_not_lt h1, le_of_not_lt h2⟩

/-- Claim C1: for every string s, `is_url_safe` s is true iff s parses as a
well-formed URL whose scheme is exactly http or https; in particular the
https example is safe and the javascript, non-URL and empty examples are
not. -/
theorem is_url_safe_iff_scheme :
    (∀ s, is_url_safe s = true ↔
      ∃ u, parseUrl s = Except.ok u ∧ (u.scheme = "http" ∨ u.scheme = "https"))
    ∧ is_url_safe "https://example.com" = true
    ∧ is_url_safe "javascript:alert(1)" = false
    ∧ is_url_safe "not a url" = false
    ∧ is_url_safe "" = false := by
  refine ⟨fun s => ?_, by decide, by decide, by decide, by decide⟩
  unfold is_url_safe
  cases h : parseUrl s with
  | ok u => simp [h]
  | error e => simp [h]

/-- Claim C8: at startup an empty configured URL is not treated as unsafe:
the unsafe-URL exit is taken exactly when the configured URL is non-empty
and fails the safety filter, and neither an absent URL nor an empty one
triggers it. -/
theorem startup_empty_url_not_rejected :
    startupUrlRejected none = false
    ∧ startupUrlRejected (some "") = false
    ∧ (∀ u, startupUrlRejected (some u) = true ↔
        u ≠ "" ∧ is_url_safe u = false) := by
  refine ⟨rfl, rfl, fun u => ?_⟩
  have hiff : u.isEmpty = false ↔ ¬u = "" := by
    rw [Bool.eq_false_iff]
    exact not_congr (String.isEmpty_iff u)
  simp only [startupUrlRejected, Option.getD_some, Bool.and_eq_true,
    Bool.not_eq_true']
  exact and_congr hiff Iff.rfl

/-- Claim C10: with try_simulate_mobile set to true the mobile user agent
is applied and the user-agent selection is ignored entirely; the Mobile and
Custom variants take effect only when try_simulate_mobile is absent or
false; and a Custom user agent whose string trims to empty leaves the
engine default in place. -/
theorem user_agent_selection_spec (mobile_ua : String) :
    (∀ ua, selectUserAgent mobile_ua (some true) ua = some mobile_ua)
    ∧ (∀ tsm, tsm = none ∨ tsm = some false →
        selectUserAgent mobile_ua tsm (some .Mobile) = some mobile_ua
        ∧ (∀ s, (rustTrim s).isEmpty = false →
            selectUserAgent mobile_ua tsm (some (.Custom s)) = some s)
        ∧ (∀ s, (rustTrim s).isEmpty = true →
            selectUserAgent mobile_ua tsm (some (.Custom s)) = none)
        ∧ selectUserAgent mobile_ua tsm (some .Default) = none
        ∧ selectUserAgent mobile_ua tsm none = none) := by
  constructor
  · intro ua
    rfl
  · rintro tsm (rfl | rfl) <;>
      exact ⟨rfl, fun s hs => by simp [selectUserAgent, hs],
        fun s hs => by simp [selectUserAgent, hs], rfl, rfl⟩

/-- Witness for `user_agent_selection_spec` at concrete inputs. -/
theorem user_agent_selection_spec_witness :
    selectUserAgent "MUA" (some true) (some (.Custom "real-ua")) = some "MUA"
    ∧ selectUserAgent "MUA" none (some (.Custom "  ")) = none
    ∧ selectUserAgent "MUA" (some false) (some (.Custom "real-ua"))
        = some "real-ua" :=
  ⟨(user_agent_selection_spec "MUA").1 (some (.Custom "real-ua")),
   (((user_agent_selection_spec "MUA").2 none (Or.inl rfl)).2.2.1 "  "
     (by decide)),
   (((user_agent_selection_spec "MUA").2 (some false) (Or.inr rfl)).2.1
     "real-ua" (by decide))⟩

/-- Claim C9: after every WindowWidth or WindowHeight editor message the
stored window-size component lies in the clamp interval 200 to 8192;
setting width to the string 99999 yields exactly 8192 and setting it to 10
yields exactly 200; unparseable input falls back to the default dimension
before clamping. -/
theorem window_size_always_clamped :
    (∀ d st s, 200 ≤ (updateWindowWidth d st s).app_window_size.1
      ∧ (updateWindowWidth d st s).app_window_size.1 ≤ 8192
      ∧ 200 ≤ (updateWindowHeight d st s).app_window_size.2
      ∧ (updateWindowHeight d st s).app_window_size.2 ≤ 8192)
    ∧ (∀ d st, (updateWindowWidth d st "99999").app_window_size.1 = 8192)
    ∧ (∀ d st, (updateWindowWidth d st "10").app_window_size.1 = 200)
    ∧ (∀ d st s, parse_f64 (filter_numeric s) = none →
        (updateWindowWidth d st s).app_window_size.1
          = rustClamp d.default_window_width 200 8192
        ∧ (updateWindowHeight d st s).app_window_size.2
          = rustClamp d.default_window_height 200 8192) := by
  have hb : (200 : ℚ) ≤ 8192 := by norm_num
  refine ⟨fun d st s => ?_, fun d st => ?_, fun d st => ?_, fun d st s hs => ?_⟩
  · exact ⟨(rustClamp_mem_Icc _ 200 8192 hb).1, (rustClamp_mem_Icc _ 200 8192 hb).2,
      (rustClamp_mem_Icc _ 200 8192 hb).1, (rustClamp_mem_Icc _ 200 8192 hb).2⟩
  · have h2 : parse_f64 (filter_numeric "99999")
        = some (((digitsVal ['9', '9', '9', '9', '9'] : ℕ) : ℚ)
            + ((digitsVal ([] : List Char) : ℕ) : ℚ)
              / 10 ^ (([] : List Char)).length) := rfl
    have h3 : digitsVal ['9', '9', '9', '9', '9'] = 99999 := by decide
    have h4 : digitsVal ([] : List Char) = 0 := rfl
    have hp : parse_f64 (filter_numeric "99999") = some 99999 := by
      rw [h2, h3, h4]
      norm_num
    simp only [updateWindowWidth, hp, Option.getD_some]
    simp only [rustClamp]
    norm_num
  · have h2 : parse_f64 (filter_numeric "10")
        = some (((digitsVal ['1', '0'] : ℕ) : ℚ)
            + ((digitsVal ([] : List Char) : ℕ) : ℚ)
              / 10 ^ (([] : List Char)).length) := rfl
    have h3 : digitsVal ['1', '0'] = 10 := by decide
    have h4 : digitsVal ([] : List Char) = 0 := rfl
    have hp : parse_f64 (filter_numeric "10") = some 10 := by
      rw [h2, h3, h4]
      norm_num
    simp only [updateWindowWidth, hp, Option.getD_some]
    simp only [rustClamp]
    norm_num
  · constructor
    · simp only [updateWindowWidth, hs, Option.getD_none]
    · simp only [updateWindowHeight, hs, Option.getD_none]

/-- Witness for `window_size_always_clamped` at concrete inputs. -/
theorem window_size_always_clamped_witness :
    (updateWindowWidth ⟨1280, 720⟩ ⟨"1280", "720", (1280, 720)⟩ "99999").app_window_size.1
      = 8192
    ∧ (updateWindowWidth ⟨1280, 720⟩ ⟨"1280", "720", (1280, 720)⟩ "10").app_window_size.1
      = 200
    ∧ (updateWindowWidth ⟨1280, 720⟩ ⟨"1280", "720", (1280, 720)⟩ "abc").app_window_size.1
      = rustClamp 1280 200 8192 :=
  ⟨window_size_always_clamped.2.1 ⟨1280, 720⟩ ⟨"1280", "720", (1280, 720)⟩,
   window_size_always_clamped.2.2.1 ⟨1280, 720⟩ ⟨"1280", "720", (1280, 720)⟩,
   (window_size_always_clamped.2.2.2 ⟨1280, 720⟩ ⟨"1280", "720", (1280, 720)⟩
     "abc" (by decide)).1⟩

/-- Claim C6: with camera denied and microphone allowed the synthesized
getUserMedia guard carries block_video true and block_audio false; a
request whose constraints contain video is rejected with NotAllowedError,
and a request without video (in particular audio-only) passes through to
the original implementation. -/
theorem camera_denied_microphone_allowed (perms : Permissions)
    (hc : perms.allow_camera = false) (hm : perms.allow_microphone = true) :
    Script.getUserMediaGuard true false ∈ permission_overrides perms
    ∧ (∀ c : MediaConstraints, c.video = true →
        getUserMedia_override true false (some c)
          = .rejected "Camera access denied by app settings" "NotAllowedError")
    ∧ (∀ c : MediaConstraints, c.video = false →
        getUserMedia_override true false (some c) = .passThrough (some c)) := by
  refine ⟨?_, fun c hv => ?_, fun c hv => ?_⟩
  · simp [permission_overrides, hc, hm]
  · simp [getUserMedia_override, hv]
  · simp [getUserMedia_override, hv]

/-- Witness for `camera_denied_microphone_allowed` at concrete inputs. -/
theorem camera_denied_microphone_allowed_witness :
    Script.getUserMediaGuard true false
      ∈ permission_overrides ⟨false, true, true, true⟩
    ∧ getUserMedia_override true false (some ⟨true, true⟩)
      = .rejected "Camera access denied by app settings" "NotAllowedError"
    ∧ getUserMedia_override true false (some ⟨false, true⟩)
      = .passThrough (some ⟨false, true⟩) :=
  ⟨(camera_denied_microphone_allowed ⟨false, true, true, true⟩ rfl rfl).1,
   (camera_denied_microphone_allowed ⟨false, true, true, true⟩ rfl rfl).2.1
     ⟨true, true⟩ rfl,
   (camera_denied_microphone_allowed ⟨false, true, true, true⟩ rfl rfl).2.2
     ⟨false, true⟩ rfl⟩

/-- Claim C2: an inbound IPC payload that fails to parse as JSON, or whose
type discriminant is absent or not one of the recognized kinds, leaves the
on-disk record untouched and produces no side effect at all. -/
theorem ipc_garbage_dropped (env : IpcEnv) (disk : DiskFile) (p : Option Json)
    (h : ∀ t, jsonType p = some t →
      t ∉ (["notification", "media", "badge", "save_url"] : List String)) :
    ipcHandler env disk p = (disk, []) := by
  cases p with
  | none => rfl
  | some j =>
    show ipcDispatch env disk j = (disk, [])
    unfold ipcDispatch
    cases ht : (Json.get j "type").bind Json.asStr with
    | none => rfl
    | some t =>
      have hmem := h t (by simp [jsonType, ht])
      simp only [List.mem_cons, List.not_mem_nil, or_false, not_or] at hmem
      obtain ⟨h1, h2, h3, h4⟩ := hmem
      simp [h1, h2, h3, h4]

/-- Witness for `ipc_garbage_dropped` at concrete inputs: an unrecognized
type and a payload that does not parse. -/
theorem ipc_garbage_dropped_witness :
    ipcHandler sampleEnv .missing
        (some (Json.obj [("type", Json.str "unknown")])) = (.missing, [])
    ∧ ipcHandler sampleEnv .missing none = (.missing, []) :=
  ⟨ipc_garbage_dropped sampleEnv .missing
      (some (Json.obj [("type", Json.str "unknown")]))
      (by
        intro t ht
        have he : t = "unknown" := by
          simpa [jsonType, Json.get, findField, Json.asStr] using ht.symm
        rw [he]
        decide),
   ipc_garbage_dropped sampleEnv .missing none
      (by intro t ht; simp [jsonType] at ht)⟩

/-- Claim C4: with notifications denied, the denial override is injected
(its constructor throws NotAllowedError and its permission reads denied),
the forwarding override is not injected, and an inbound notification IPC
message produces no side effect. -/
theorem notifications_denied_enforced (perms : Permissions)
    (h : perms.allow_notifications = false) :
    Script.notificationDeny ∈ permission_overrides perms
    ∧ notificationDeny_construct
        = NotifConstructOutcome.threw "Notifications denied by app settings"
            "NotAllowedError"
    ∧ notificationDeny_permission = "denied"
    ∧ notificationDeny_requestPermission = "denied"
    ∧ notificationForwardInjected perms = false
    ∧ (∀ wt rs db disk j,
        (Json.get j "type").bind Json.asStr = some "notification" →
        ipcHandler (mkIpcEnv wt perms rs db) disk (some j) = (disk, [])) := by
  refine ⟨?_, rfl, rfl, rfl, by simp [notificationForwardInjected, h], ?_⟩
  · simp [permission_overrides, h]
  · intro wt rs db disk j ht
    show ipcDispatch (mkIpcEnv wt perms rs db) disk j = (disk, [])
    unfold ipcDispatch
    rw [ht]
    simp [mkIpcEnv, h]

/-- Witness for `notifications_denied_enforced` at concrete inputs. -/
theorem notifications_denied_enforced_witness :
    Script.notificationDeny ∈ permission_overrides ⟨true, true, true, false⟩
    ∧ ipcHandler (mkIpcEnv (some "Title") ⟨true, true, true, false⟩ none true)
        .missing (some (notifMsg "T" "B")) = (.missing, []) :=
  ⟨(notifications_denied_enforced ⟨true, true, true, false⟩ rfl).1,
   (notifications_denied_enforced ⟨true, true, true, false⟩ rfl).2.2.2.2.2
     (some "Title") none true .missing (notifMsg "T" "B") rfl⟩

/-- Claim C5: with notifications allowed, one notification IPC message with
string title T and body B produces exactly one desktop notification whose
summary is the display title joined with T (so it contains both) and whose
body is B; a missing or non-string title falls back to the default title
and a missing body falls back to the empty string. -/
theorem notification_forwarded (wt : Option String) (perms : Permissions)
    (rs : Option Bool) (db : Bool) (disk : DiskFile) (T B : String)
    (h : perms.allow_notifications = true) :
    ipcHandler (mkIpcEnv wt perms rs db) disk (some (notifMsg T B))
      = (disk, [Effect.showNotification ((wt.getD "Web App") ++ " — " ++ T) B
          "dev.heppen.webapps"])
    ∧ (∃ rest, (wt.getD "Web App") ++ " — " ++ T = (wt.getD "Web App") ++ rest)
    ∧ (∃ start, (wt.getD "Web App") ++ " — " ++ T = start ++ T)
    ∧ (∀ j, (Json.get j "type").bind Json.asStr = some "notification" →
        (Json.get j "title").bind Json.asStr = none →
        ipcHandler (mkIpcEnv wt perms rs db) disk (some j)
          = (disk, [Effect.showNotification
              ((wt.getD "Web App") ++ " — " ++ "Notification")
              (((Json.get j "body").bind Json.asStr).getD "")
              "dev.heppen.webapps"]))
    ∧ ipcHandler (mkIpcEnv wt perms rs db) disk
        (some (Json.obj [("type", Json.str "notification"),
          ("title", Json.str T)]))
      = (disk, [Effect.showNotification ((wt.getD "Web App") ++ " — " ++ T) ""
          "dev.heppen.webapps"]) := by
  refine ⟨?_, ⟨" — " ++ T, ?_⟩, ⟨(wt.getD "Web App") ++ " — ", rfl⟩, ?_, ?_⟩
  · simp [ipcHandler, ipcDispatch, notifMsg, Json.get, findField, Json.asStr,
      mkIpcEnv, h]
  · rw [String.append_assoc]
  · intro j ht htitle
    show ipcDispatch (mkIpcEnv wt perms rs db) disk j = _
    unfold ipcDispatch
    rw [ht]
    simp [mkIpcEnv, h, htitle]
  · simp [ipcHandler, ipcDispatch, Json.get, findField, Json.asStr, mkIpcEnv, h]

/-- Witness for `notification_forwarded` at concrete inputs. -/
theorem notification_forwarded_witness :
    ipcHandler (mkIpcEnv (some "MyApp") ⟨false, false, false, true⟩ none true)
        .missing (some (notifMsg "T" "B"))
      = (.missing, [Effect.showNotification ("MyApp" ++ " — " ++ "T") "B"
          "dev.heppen.webapps"])
    ∧ ipcHandler (mkIpcEnv (some "MyApp") ⟨false, false, false, true⟩ none true)
        .missing (some (Json.obj [("type", Json.str "notification")]))
      = (.missing, [Effect.showNotification ("MyApp" ++ " — " ++ "Notification")
          "" "dev.heppen.webapps"]) :=
  ⟨(notification_forwarded (some "MyApp") ⟨false, false, false, true⟩ none true
      .missing "T" "B" rfl).1,
   (notification_forwarded (some "MyApp") ⟨false, false, false, true⟩ none true
      .missing "T" "B" rfl).2.2.2.1
     (Json.obj [("type", Json.str "notification")]) rfl rfl⟩

/-- Claim C3 as amended: with session restore enabled, a resolvable
database path and a parsed on-disk record, processing a save_url message
with a non-empty url u persists last_url = u, processing it again gives
the same persisted record (idempotent), every other field of the record is
unchanged, and with session restore disabled the message is ignored
entirely. -/
theorem save_url_idempotent_nonempty (env : IpcEnv) (l : WebAppLauncher)
    (u : String) (hu : u ≠ "")
    (hr : env.restore_session_enabled = true)
    (hdb : env.db_path_available = true) :
    ipcHandler env (.record l) (some (saveUrlMsg u))
      = (.record (setLastUrl l u), [Effect.writeDb (setLastUrl l u)])
    ∧ ipcHandler env (.record (setLastUrl l u)) (some (saveUrlMsg u))
      = (.record (setLastUrl l u), [Effect.writeDb (setLastUrl l u)])
    ∧ (setLastUrl l u).browser.last_url = some u
    ∧ (setLastUrl l u).browser = { l.browser with last_url := some u }
    ∧ (setLastUrl l u).name = l.name
    ∧ (setLastUrl l u).icon_path = l.icon_path
    ∧ (setLastUrl l u).category = l.category
    ∧ (setLastUrl l u).launch_count = l.launch_count
    ∧ (setLastUrl l u).last_launched = l.last_launched
    ∧ (∀ env2 disk, env2.restore_session_enabled = false →
        ipcHandler env2 disk (some (saveUrlMsg u)) = (disk, [])) := by
  have hne : u.isEmpty = false := isEmpty_eq_false_of_ne_empty u hu
  refine ⟨?_, ?_, rfl, rfl, rfl, rfl, rfl, rfl, rfl, ?_⟩
  · simp [ipcHandler, ipcDispatch, saveUrlMsg, Json.get, findField, Json.asStr,
      hr, hdb, handleSaveUrl, hne, setLastUrl]
  · simp [ipcHandler, ipcDispatch, saveUrlMsg, Json.get, findField, Json.asStr,
      hr, hdb, handleSaveUrl, hne, setLastUrl]
  · intro env2 disk h2
    simp [ipcHandler, ipcDispatch, saveUrlMsg, Json.get, findField, Json.asStr,
      h2]

/-- Witness for `save_url_idempotent_nonempty` at concrete inputs. -/
theorem save_url_idempotent_nonempty_witness :
    ipcHandler sampleEnv (.record sampleLauncher)
        (some (saveUrlMsg "https://x/y"))
      = (.record (setLastUrl sampleLauncher "https://x/y"),
         [Effect.writeDb (setLastUrl sampleLauncher "https://x/y")])
    ∧ (setLastUrl sampleLauncher "https://x/y").browser.last_url
      = some "https://x/y" :=
  ⟨(save_url_idempotent_nonempty sampleEnv sampleLauncher "https://x/y"
      (by decide) rfl rfl).1,
   (save_url_idempotent_nonempty sampleEnv sampleLauncher "https://x/y"
      (by decide) rfl rfl).2.2.1⟩

/-- Counterexample to claim C3 as stated: at the empty url, with session
restore enabled and a parsed on-disk record, processing the save_url
message leaves the previously persisted last_url in place rather than
making it equal to the message url. -/
theorem save_url_empty_url_counterexample :
    ipcHandler sampleEnv (.record sampleLauncher) (some (saveUrlMsg ""))
      = (.record sampleLauncher, [])
    ∧ sampleLauncher.browser.last_url = some "https://old.example/"
    ∧ sampleLauncher.browser.last_url ≠ some "" := by
  refine ⟨?_, rfl, ?_⟩
  · simp [ipcHandler, ipcDispatch, saveUrlMsg, Json.get, findField, Json.asStr,
      sampleEnv, handleSaveUrl, String.isEmpty]
  · simp [sampleLauncher, sampleBrowser]

/-- Claim C7: when the on-disk record is missing, unreadable or
unparseable, processing a save_url message is a no-op: the disk state is
unchanged and no side effect (in particular no write) is produced. -/
theorem save_url_persistence_noop (env : IpcEnv) (u : String)
    (disk : DiskFile) (hd : disk = .missing ∨ disk = .unparseable) :
    ipcHandler env disk (some (saveUrlMsg u)) = (disk, []) := by
  have hs : ∀ (e : IpcEnv) (d : DiskFile), (∀ l, d ≠ .record l) →
      handleSaveUrl e d (saveUrlMsg u) = (d, []) := by
    intro e d hdl
    cases d with
    | record l => exact absurd rfl (hdl l)
    | missing =>
      unfold handleSaveUrl
      simp [saveUrlMsg, Json.get, findField, Json.asStr]
    | unparseable =>
      unfold handleSaveUrl
      simp [saveUrlMsg, Json.get, findField, Json.asStr]
  have happ : ∀ d : DiskFile, (∀ l, d ≠ .record l) →
      ipcHandler env d (some (saveUrlMsg u)) = (d, []) := by
    intro d hdl
    cases hr : env.restore_session_enabled with
    | false =>
      simp [ipcHandler, ipcDispatch, saveUrlMsg, Json.get, findField,
        Json.asStr, hr]
    | true =>
      show ipcDispatch env d (saveUrlMsg u) = (d, [])
      unfold ipcDispatch
      simp only [saveUrlMsg, Json.get, findField, Json.asStr]
      simp [hr]
      exact hs env d hdl
  rcases hd with rfl | rfl
  · exact happ _ (fun l hl => by simp at hl)
  · exact happ _ (fun l hl => by simp at hl)

/-- Witness for `save_url_persistence_noop` at concrete inputs. -/
theorem save_url_persistence_noop_witness :
    ipcHandler sampleEnv .missing (some (saveUrlMsg "https://x/y"))
      = (.missing, [])
    ∧ ipcHandler sampleEnv .unparseable (some (saveUrlMsg "https://x/y"))
      = (.unparseable, []) :=
  ⟨save_url_persistence_noop sampleEnv "https://x/y" .missing (Or.inl rfl),
   save_url_persistence_noop sampleEnv "https://x/y" .unparseable (Or.inr rfl)⟩

end WebApps
